import Mathlib

set_option autoImplicit false
set_option linter.unusedVariables false

/-!
Verification of the JSON-file-backed table/record store of the tws-toolbelt
repository (src/database.ts single-collection variant and the multi-table
variant).  The persistent-file engine (lowdb JSONFilePreset) loads the whole
document into memory and persists it after every update callback; all
observable behaviour of the store is therefore captured by the in-memory
document, which we model directly.  Records are JavaScript objects, modelled
as ordered association lists of field name / value pairs.
-/

/-- Primitive JSON field values stored in a record: strings, integer numbers
and booleans, compared with JavaScript strict equality. -/
inductive Value where
  | vStr : String → Value
  | vInt : Int → Value
  | vBool : Bool → Value
  deriving DecidableEq, Repr

/-- Record: one JavaScript object, as the ordered list of its
(field name, value) pairs.  Objects built by the library have pairwise
distinct keys. -/
abbrev Record : Type := List (String × Value)

/-- Field access: the value of field k in record r (JavaScript property
read; none models the absent-property result undefined). -/
def getField (r : Record) (k : String) : Option Value :=
  (r.find? (fun p => p.1 == k)).map (fun p => p.2)

/-- Shallow merge by JavaScript object spread, as in the update operations
of database.ts: keys of old keep their position with values overridden by
upd when upd also has the key; keys of upd absent from old are appended in
order. -/
def mergeRecords (old upd : Record) : Record :=
  (old.map (fun p =>
    match getField upd p.1 with
    | some v => (p.1, v)
    | none => p))
  ++ upd.filter (fun p => (getField old p.1).isNone)

/-- Identity test item.id === id used by every identity lookup of the
store. -/
def matchesId (id : Value) (r : Record) : Bool :=
  getField r "id" == some id

/-- Index of the first element satisfying p, as Array.prototype.findIndex
(the JavaScript result -1 becomes none). -/
def findIndex {α : Type} (p : α → Bool) : List α → Option Nat
  | [] => none
  | x :: xs => if p x then some 0 else (findIndex p xs).map (fun i => i + 1)

/-!
Single-collection store (createDatabase in database.ts).  Every operation of
the returned instance reads and writes only the array db.data[collectionName],
so the store state is that array; createDatabase initializes it to the empty
array. -/
namespace Database

/-- getAll of createDatabase: the live collection array. -/
def getAll (c : List Record) : List Record := c

/-- getById of createDatabase: first record whose id field strictly equals
id. -/
def getById (c : List Record) (id : Value) : Option Record :=
  c.find? (matchesId id)

/-- find of createDatabase: filter by a predicate, order preserved. -/
def find (c : List Record) (p : Record → Bool) : List Record :=
  c.filter p

/-- findOne of createDatabase: first record satisfying the predicate. -/
def findOne (c : List Record) (p : Record → Bool) : Option Record :=
  c.find? p

/-- add of createDatabase: pushes the item at the end of the collection and
returns the item; first component is the collection after the call. -/
def add (c : List Record) (item : Record) : List Record × Record :=
  (c ++ [item], item)

/-- update of createDatabase: shallow-merges updates over the record at the
first index whose id matches (no change when none matches), then returns
the first record matching id in the updated collection.  First component is
the collection after the call. -/
def update (c : List Record) (id : Value) (updates : Record) :
    List Record × Option Record :=
  let c2 :=
    match findIndex (matchesId id) c with
    | some i => c.set i (mergeRecords (c.getD i []) updates)
    | none => c
  (c2, c2.find? (matchesId id))

/-- remove of createDatabase: splices out the record at the first index
whose id matches and returns it; no change and no record when none
matches. -/
def remove (c : List Record) (id : Value) : List Record × Option Record :=
  match findIndex (matchesId id) c with
  | some i => (c.eraseIdx i, c.get? i)
  | none => (c, none)

/-- count of createDatabase: length of the collection array. -/
def count (c : List Record) : Nat := c.length

/-- clear of createDatabase: replaces the collection with the empty
array. -/
def clear (c : List Record) : List Record := []

/-- query of createDatabase: applies the callback to the live collection. -/
def query {R : Type} (c : List Record) (callback : List Record → R) : R :=
  callback c

end Database

/-- Document of a multi-table database (createMultiTableDatabase): entries
lists the non-metadata top-level keys in object order with their record
arrays, and metaTables is the _metadata.tables list.  The reserved key
_metadata always holds the metadata object in documents this API produces,
so it is kept as a separate field; table names range over the non-reserved
keys. -/
structure MTDoc where
  entries : List (String × List Record)
  metaTables : List String
  deriving DecidableEq, Repr

namespace MultiTable

/-- Document built by createMultiTableDatabase from initialTables: the
initial tables in order plus _metadata whose tables field lists their
names. -/
def mkDatabase (initialTables : List (String × List Record)) : MTDoc :=
  { entries := initialTables, metaTables := initialTables.map Prod.fst }

/-- Lookup of db.data[name] for a non-reserved name: the record array of
the table, or none when the key is absent. -/
def lookupTable (doc : MTDoc) (name : String) : Option (List Record) :=
  (doc.entries.find? (fun p => p.1 == name)).map (fun p => p.2)

/-- Truthiness test !!(db.data)[name] used by ensureTable and exists: a
present table holds an array, which is always truthy, so presence of the
key decides it. -/
def tableExists (doc : MTDoc) (name : String) : Bool :=
  (lookupTable doc name).isSome

/-- listTables: Object.keys of the document minus the _metadata key, in
object order. -/
def listTables (doc : MTDoc) : List String :=
  doc.entries.map Prod.fst

/-- JavaScript property assignment data[name] = v on the non-metadata part
of the document: an existing key keeps its position and gets the new value,
a new key is appended at the end. -/
def setEntry : List (String × List Record) → String → List Record →
    List (String × List Record)
  | [], name, v => [(name, v)]
  | p :: rest, name, v =>
    if p.1 == name then (name, v) :: rest else p :: setEntry rest name v

/-- createTable: assigns data[name] = initialData unconditionally, then
recomputes _metadata.tables as the non-metadata keys of the document (the
guard if data._metadata holds in every document this API produces). -/
def createTable (doc : MTDoc) (name : String) (initialData : List Record) :
    MTDoc :=
  let es := setEntry doc.entries name initialData
  { entries := es, metaTables := es.map Prod.fst }

/-- dropTable: deletes the key (a no-op when absent, as the JavaScript
delete operator), then recomputes _metadata.tables as the non-metadata keys
of the document. -/
def dropTable (doc : MTDoc) (name : String) : MTDoc :=
  let es := doc.entries.filter (fun p => !(p.1 == name))
  { entries := es, metaTables := es.map Prod.fst }

end MultiTable

/-- Handle returned by table(name): a bundle of closures over the table
name; building it performs no check and cannot fail. -/
structure TableHandle where
  name : String
  deriving DecidableEq, Repr

namespace MultiTable

/-- table of createMultiTableDatabase: wraps the name into a handle,
without verifying that the table exists. -/
def table (name : String) : TableHandle :=
  { name := name }

end MultiTable

/-- Message of the error thrown by ensureTable; the JavaScript message
additionally wraps the name in single quotation marks. -/
def missingMsg (name : String) : String :=
  "Table " ++ name ++ " does not exist. Use createTable() first."

/-!
Operations of a table handle.  Each one calls ensureTable first and throws
when the name is not a key of the document; the throw happens before the
db.update call, so an error result carries no updated document.  On a
present table each operation acts on the record array exactly as the
single-collection operation of the same name. -/
namespace Table

/-- getAll of a table handle. -/
def getAll (doc : MTDoc) (t : TableHandle) : Except String (List Record) :=
  match MultiTable.lookupTable doc t.name with
  | some rs => Except.ok (Database.getAll rs)
  | none => Except.error (missingMsg t.name)

/-- getById of a table handle. -/
def getById (doc : MTDoc) (t : TableHandle) (id : Value) :
    Except String (Option Record) :=
  match MultiTable.lookupTable doc t.name with
  | some rs => Except.ok (Database.getById rs id)
  | none => Except.error (missingMsg t.name)

/-- find of a table handle. -/
def find (doc : MTDoc) (t : TableHandle) (p : Record → Bool) :
    Except String (List Record) :=
  match MultiTable.lookupTable doc t.name with
  | some rs => Except.ok (Database.find rs p)
  | none => Except.error (missingMsg t.name)

/-- findOne of a table handle. -/
def findOne (doc : MTDoc) (t : TableHandle) (p : Record → Bool) :
    Except String (Option Record) :=
  match MultiTable.lookupTable doc t.name with
  | some rs => Except.ok (Database.findOne rs p)
  | none => Except.error (missingMsg t.name)

/-- add of a table handle: document after the push, and the item. -/
def add (doc : MTDoc) (t : TableHandle) (item : Record) :
    Except String (MTDoc × Record) :=
  match MultiTable.lookupTable doc t.name with
  | some rs =>
    Except.ok
      ({ doc with
          entries := MultiTable.setEntry doc.entries t.name
            (Database.add rs item).1 },
        (Database.add rs item).2)
  | none => Except.error (missingMsg t.name)

/-- update of a table handle: document after the merge, and the first
record matching id afterwards. -/
def update (doc : MTDoc) (t : TableHandle) (id : Value) (updates : Record) :
    Except String (MTDoc × Option Record) :=
  match MultiTable.lookupTable doc t.name with
  | some rs =>
    Except.ok
      ({ doc with
          entries := MultiTable.setEntry doc.entries t.name
            (Database.update rs id updates).1 },
        (Database.update rs id updates).2)
  | none => Except.error (missingMsg t.name)

/-- remove of a table handle: document after the splice, and the removed
record. -/
def remove (doc : MTDoc) (t : TableHandle) (id : Value) :
    Except String (MTDoc × Option Record) :=
  match MultiTable.lookupTable doc t.name with
  | some rs =>
    Except.ok
      ({ doc with
          entries := MultiTable.setEntry doc.entries t.name
            (Database.remove rs id).1 },
        (Database.remove rs id).2)
  | none => Except.error (missingMsg t.name)

/-- count of a table handle. -/
def count (doc : MTDoc) (t : TableHandle) : Except String Nat :=
  match MultiTable.lookupTable doc t.name with
  | some rs => Except.ok (Database.count rs)
  | none => Except.error (missingMsg t.name)

/-- clear of a table handle: document with the table array emptied. -/
def clear (doc : MTDoc) (t : TableHandle) : Except String MTDoc :=
  match MultiTable.lookupTable doc t.name with
  | some _ =>
    Except.ok
      { doc with entries := MultiTable.setEntry doc.entries t.name [] }
  | none => Except.error (missingMsg t.name)

/-- query of a table handle. -/
def query {R : Type} (doc : MTDoc) (t : TableHandle)
    (callback : List Record → R) : Except String R :=
  match MultiTable.lookupTable doc t.name with
  | some rs => Except.ok (Database.query rs callback)
  | none => Except.error (missingMsg t.name)

/-- exists of a table handle: truthiness of db.data[name], with no
ensureTable call. -/
def existsTable (doc : MTDoc) (t : TableHandle) : Bool :=
  MultiTable.tableExists doc t.name

end Table

/-- Call of a client session against the single-collection store: one add
or one remove invocation. -/
inductive Op where
  | add : Record → Op
  | remove : Value → Op
  deriving DecidableEq, Repr

/-- Collection state after executing the calls in order, starting from
state c. -/
def runOps (c : List Record) : List Op → List Record
  | [] => c
  | Op.add r :: ops => runOps (Database.add c r).1 ops
  | Op.remove id :: ops => runOps (Database.remove c id).1 ops

/-- Number of add calls in the sequence. -/
def numAdds : List Op → Nat
  | [] => 0
  | Op.add _ :: ops => numAdds ops + 1
  | Op.remove _ :: ops => numAdds ops

/-- Number of remove calls that return a removed record (successful
removes) when the calls execute in order from state c. -/
def numSuccessfulRemoves (c : List Record) : List Op → Nat
  | [] => 0
  | Op.add r :: ops => numSuccessfulRemoves (Database.add c r).1 ops
  | Op.remove id :: ops =>
    (if (Database.remove c id).2.isSome then 1 else 0)
    + numSuccessfulRemoves (Database.remove c id).1 ops

/-- Record with fields id 1 and name A. -/
def recA : Record := [("id", Value.vInt 1), ("name", Value.vStr "A")]

/-- Record with fields id 1 and name B: same id as recA. -/
def recB : Record := [("id", Value.vInt 1), ("name", Value.vStr "B")]

/-- Record with fields id 2 and name B. -/
def recU2 : Record := [("id", Value.vInt 2), ("name", Value.vStr "B")]

/-- Result of the scenario createTable users, add id 1 name A, add id 2
name B, update id 1 to name A2, getAll on the users table, executed on a
fresh multi-table database. -/
def scenarioResult : Except String (List Record) := do
  let d1 := MultiTable.createTable (MultiTable.mkDatabase []) "users" []
  let p2 ← Table.add d1 (MultiTable.table "users") recA
  let p3 ← Table.add p2.1 (MultiTable.table "users") recU2
  let p4 ← Table.update p3.1 (MultiTable.table "users") (Value.vInt 1)
    [("name", Value.vStr "A2")]
  Table.getAll p4.1 (MultiTable.table "users")

/-!
Helper lemmas about field lookup, shallow merge and findIndex. -/

theorem getField_nil (k : String) : getField [] k = none := rfl

theorem getField_cons (p : String × Value) (r : Record) (k : String) :
    getField (p :: r) k = if p.1 == k then some p.2 else getField r k := by
  by_cases h : p.1 == k
  · simp [getField, List.find?_cons_of_pos, h]
  · simp [getField, List.find?_cons_of_neg, h]

theorem getField_append (r1 r2 : Record) (k : String) :
    getField (r1 ++ r2) k = (getField r1 k).or (getField r2 k) := by
  unfold getField
  rw [List.find?_append]
  cases r1.find? (fun p => p.1 == k) <;> simp

theorem getField_overlay_map (old upd : Record) (k : String) :
    getField (old.map (fun p =>
      match getField upd p.1 with
      | some v => (p.1, v)
      | none => p)) k
    = match getField old k with
      | some v => (getField upd k).or (some v)
      | none => none := by
  induction old with
  | nil => rfl
  | cons p rest ih =>
    by_cases h : p.1 == k
    · have hk : p.1 = k := by simpa using h
      subst hk
      cases hu : getField upd p.1 with
      | some v => simp [List.map_cons, hu, getField_cons]
      | none => simp [List.map_cons, hu, getField_cons]
    · cases hu : getField upd p.1 <;>
        simp [List.map_cons, hu, getField_cons, h, ih]

theorem getField_filter_missing (old upd : Record) (k : String) :
    getField (upd.filter (fun p => (getField old p.1).isNone)) k
    = match getField old k with
      | some _ => none
      | none => getField upd k := by
  induction upd with
  | nil => cases getField old k <;> rfl
  | cons q rest ih =>
    by_cases h : q.1 == k
    · have hk : q.1 = k := by simpa using h
      subst hk
      cases ho : getField old q.1 with
      | some v => simp [List.filter_cons, ho, ih, getField_cons]
      | none => simp [List.filter_cons, ho, getField_cons]
    · cases hq : (getField old q.1).isNone <;>
        simp [List.filter_cons, hq, getField_cons, h, ih]

theorem getField_mergeRecords (old upd : Record) (k : String) :
    getField (mergeRecords old upd) k
    = (getField upd k).or (getField old k) := by
  unfold mergeRecords
  rw [getField_append, getField_overlay_map, getField_filter_missing]
  cases ho : getField old k <;> cases hu : getField upd k <;> simp

theorem findIndex_nil {α : Type} (p : α → Bool) : findIndex p [] = none :=
  rfl

theorem findIndex_cons {α : Type} (p : α → Bool) (x : α) (xs : List α) :
    findIndex p (x :: xs)
    = if p x then some 0 else (findIndex p xs).map (fun i => i + 1) := rfl

theorem findIndex_eq_none {α : Type} (p : α → Bool) (c : List α)
    (h : ∀ x ∈ c, p x = false) : findIndex p c = none := by
  induction c with
  | nil => rfl
  | cons x xs ih =>
    have hx : p x = false := h x (by simp)
    simp [findIndex_cons, hx, ih (fun y hy => h y (by simp [hy]))]

theorem findIndex_some_lt {α : Type} {p : α → Bool} {c : List α} {i : Nat}
    (h : findIndex p c = some i) : i < c.length := by
  induction c generalizing i with
  | nil => simp [findIndex] at h
  | cons x xs ih =>
    rw [findIndex_cons] at h
    by_cases hx : p x
    · simp [hx] at h
      simp [← h]
    · simp [hx, Option.map_eq_some'] at h
      obtain ⟨j, hj, rfl⟩ := h
      have := ih hj
      simp
      omega

theorem findIndex_some_getD {α : Type} {p : α → Bool} {c : List α}
    {i : Nat} (h : findIndex p c = some i) (d : α) :
    p (c.getD i d) = true := by
  induction c generalizing i with
  | nil => simp [findIndex] at h
  | cons x xs ih =>
    rw [findIndex_cons] at h
    by_cases hx : p x
    · simp [hx] at h
      simp [← h, hx]
    · simp [hx, Option.map_eq_some'] at h
      obtain ⟨j, hj, rfl⟩ := h
      simpa using ih hj


theorem find?_set_of_findIndex {α : Type} {p : α → Bool} {c : List α}
    {i : Nat} (h : findIndex p c = some i) (v : α) (hv : p v = true) :
    (c.set i v).find? p = some v := by
  induction c generalizing i with
  | nil => simp [findIndex] at h
  | cons x xs ih =>
    rw [findIndex_cons] at h
    by_cases hx : p x
    · simp [hx] at h
      simp [← h, List.set_cons_zero, List.find?_cons_of_pos, hv]
    · simp [hx, Option.map_eq_some'] at h
      obtain ⟨j, hj, rfl⟩ := h
      simp [List.set_cons_succ, List.find?_cons_of_neg, hx, ih hj]

theorem getD_set_self {α : Type} {c : List α} {i : Nat}
    (h : i < c.length) (v d : α) : (c.set i v).getD i d = v := by
  simp [List.getD_eq_getElem?_getD, List.getElem?_set_self h]

theorem find?_setEntry (es : List (String × List Record)) (name : String)
    (v : List Record) :
    (MultiTable.setEntry es name v).find? (fun p => p.1 == name)
      = some (name, v) := by
  induction es with
  | nil => simp [MultiTable.setEntry]
  | cons p rest ih =>
    by_cases h : p.1 == name
    · simp [MultiTable.setEntry, h]
    · simp [MultiTable.setEntry, h, ih]

/-- C1 counterexample: on a partial record that changes the id field,
update stores the merged record at the matching index but returns none
rather than that record, because the post-update lookup still searches for
the old id. -/
theorem update_idchange_counterexample :
    (Database.update [recA] (Value.vInt 1) [("id", Value.vInt 2)]).2 = none
    ∧ (Database.update [recA] (Value.vInt 1) [("id", Value.vInt 2)]).1
      = [[("id", Value.vInt 2), ("name", Value.vStr "A")]] :=
  ⟨rfl, rfl⟩

/-- C1 (amended): for an id matching the record at first index i and a
partial record whose id field, when present, equals that id, update
returns the record at index i with the partial shallow-merged over it,
that merged record is what index i stores after the call, and every field
of the merged record is the partial value when the partial has the field
and the old value otherwise; the update of a multi-table handle performs
the same computation on the record array of its table. -/
theorem update_shallow_merge (c : List Record) (id : Value) (upd : Record)
    (i : Nat) (hfi : findIndex (matchesId id) c = some i)
    (hid : getField upd "id" = none ∨ getField upd "id" = some id) :
    (Database.update c id upd).2 = some (mergeRecords (c.getD i []) upd)
    ∧ (Database.update c id upd).1
      = c.set i (mergeRecords (c.getD i []) upd)
    ∧ (Database.update c id upd).1.getD i []
      = mergeRecords (c.getD i []) upd
    ∧ (∀ k, getField (mergeRecords (c.getD i []) upd) k
        = (getField upd k).or (getField (c.getD i []) k))
    ∧ ∀ (doc : MTDoc) (t : TableHandle),
        MultiTable.lookupTable doc t.name = some c →
        Table.update doc t id upd
        = Except.ok
            ({ doc with
                entries := MultiTable.setEntry doc.entries t.name
                  (Database.update c id upd).1 },
              (Database.update c id upd).2) := by
  have hold : matchesId id (c.getD i []) = true := findIndex_some_getD hfi []
  have holdid : getField (c.getD i []) "id" = some id := by
    simpa [matchesId] using hold
  have hm : matchesId id (mergeRecords (c.getD i []) upd) = true := by
    unfold matchesId
    rw [getField_mergeRecords]
    rcases hid with h0 | h0 <;> rw [h0, holdid] <;> simp
  have h1 : (Database.update c id upd).1
      = c.set i (mergeRecords (c.getD i []) upd) := by
    simp [Database.update, hfi]
  have h2 : (Database.update c id upd).2
      = (c.set i (mergeRecords (c.getD i []) upd)).find? (matchesId id) := by
    simp [Database.update, hfi]
  refine ⟨?_, h1, ?_, fun k => getField_mergeRecords _ _ k, ?_⟩
  · rw [h2]
    exact find?_set_of_findIndex hfi _ hm
  · rw [h1]
    exact getD_set_self (findIndex_some_lt hfi) _ _
  · intro doc t hdoc
    simp [Table.update, hdoc]

/-- C1 witness: concrete run of the amended statement, with the merged
record evaluated. -/
theorem update_shallow_merge_witness :
    (Database.update [recA] (Value.vInt 1) [("name", Value.vStr "A2")]).2
      = some [("id", Value.vInt 1), ("name", Value.vStr "A2")] :=
  (update_shallow_merge [recA] (Value.vInt 1) [("name", Value.vStr "A2")] 0
    rfl (Or.inl rfl)).1

/-- C4 counterexample: when a record with the same id is already present,
getById immediately after add returns the earlier record, not the added
one. -/
theorem add_getById_duplicate_counterexample :
    Database.getById (Database.add [recA] recB).1 (Value.vInt 1) = some recA
    ∧ recA ≠ recB :=
  ⟨rfl, by decide⟩

/-- C4 (amended): after add(r) on a collection with no record matching the
id of r, getById on that id returns exactly r; the lookup reads the same
in-memory collection the push wrote, so no reload is involved. -/
theorem add_getById_fresh (c : List Record) (r : Record) (rid : Value)
    (h1 : getField r "id" = some rid)
    (h2 : Database.getById c rid = none) :
    Database.getById (Database.add c r).1 rid = some r := by
  unfold Database.getById at h2 ⊢
  unfold Database.add
  rw [List.find?_append, h2]
  have hr : matchesId rid r = true := by simp [matchesId, h1]
  simp [List.find?_cons_of_pos, hr]

/-- C4 witness: concrete run of the amended statement. -/
theorem add_getById_fresh_witness :
    Database.getById (Database.add [] recA).1 (Value.vInt 1) = some recA :=
  add_getById_fresh [] recA (Value.vInt 1) rfl rfl

/-- C5: add appends the record at the end, leaving every existing record
at its position, returns the same record, and performs no duplicate-id
check; a lookup by id still returns the first match in collection order,
so an added duplicate does not shadow an earlier record. -/
theorem add_append_no_dedup (c : List Record) (r : Record) :
    (Database.add c r).1 = c ++ [r]
    ∧ (Database.add c r).2 = r
    ∧ ∀ id v, Database.getById c id = some v →
        Database.getById (Database.add c r).1 id = some v := by
  refine ⟨rfl, rfl, fun id v hv => ?_⟩
  unfold Database.getById at hv ⊢
  unfold Database.add
  rw [List.find?_append, hv]
  rfl

/-- C5 witness: adding recB, which duplicates the id of recA, still
appends, and getById keeps returning the first match recA. -/
theorem add_append_no_dedup_witness :
    Database.getById (Database.add [recA] recB).1 (Value.vInt 1)
      = some recA :=
  (add_append_no_dedup [recA] recB).2.2 (Value.vInt 1) recA rfl

/-- C6: update and remove on an id matching no record return none without
an error and leave the collection, hence count, unchanged. -/
theorem update_remove_not_found (c : List Record) (id : Value) (u : Record)
    (h : ∀ r ∈ c, matchesId id r = false) :
    Database.update c id u = (c, none)
    ∧ Database.remove c id = (c, none)
    ∧ Database.count (Database.update c id u).1 = Database.count c
    ∧ Database.count (Database.remove c id).1 = Database.count c := by
  have hfi : findIndex (matchesId id) c = none := findIndex_eq_none _ _ h
  have hf : c.find? (matchesId id) = none :=
    List.find?_eq_none.mpr (fun x hx => by simp [h x hx])
  have h1 : Database.update c id u = (c, none) := by
    simp [Database.update, hfi, hf]
  have h2 : Database.remove c id = (c, none) := by
    simp [Database.remove, hfi]
  exact ⟨h1, h2, by rw [h1], by rw [h2]⟩

/-- C6 witness: concrete run on a collection not containing id 2. -/
theorem update_remove_not_found_witness :
    Database.update [recA] (Value.vInt 2) [] = ([recA], none) :=
  (update_remove_not_found [recA] (Value.vInt 2) [] (by decide)).1

/-- C2: on a name that is not a key of the document, table(name) itself
succeeds, since it only wraps the name into a handle, and every operation
of that handle returns the table-does-not-exist error; an erroring
mutating operation yields no updated document, because ensureTable throws
before the update callback runs. -/
theorem table_ops_absent_error (doc : MTDoc) (name : String)
    (h : MultiTable.lookupTable doc name = none) :
    MultiTable.table name = { name := name }
    ∧ Table.getAll doc (MultiTable.table name)
      = Except.error (missingMsg name)
    ∧ (∀ id, Table.getById doc (MultiTable.table name) id
      = Except.error (missingMsg name))
    ∧ (∀ p, Table.find doc (MultiTable.table name) p
      = Except.error (missingMsg name))
    ∧ (∀ p, Table.findOne doc (MultiTable.table name) p
      = Except.error (missingMsg name))
    ∧ (∀ r, Table.add doc (MultiTable.table name) r
      = Except.error (missingMsg name))
    ∧ (∀ id u, Table.update doc (MultiTable.table name) id u
      = Except.error (missingMsg name))
    ∧ (∀ id, Table.remove doc (MultiTable.table name) id
      = Except.error (missingMsg name))
    ∧ Table.count doc (MultiTable.table name)
      = Except.error (missingMsg name)
    ∧ Table.clear doc (MultiTable.table name)
      = Except.error (missingMsg name)
    ∧ ∀ (R : Type) (f : List Record → R),
        Table.query doc (MultiTable.table name) f
        = Except.error (missingMsg name) := by
  refine ⟨rfl, ?_, ?_, ?_, ?_, ?_, ?_, ?_, ?_, ?_, ?_⟩ <;> intros <;>
    simp [Table.getAll, Table.getById, Table.find, Table.findOne,
      Table.add, Table.update, Table.remove, Table.count, Table.clear,
      Table.query, MultiTable.table, h]

/-- C2 witness: on a fresh empty multi-table database, getAll of the
absent users table fails with the table-does-not-exist error. -/
theorem table_ops_absent_error_witness :
    Table.getAll (MultiTable.mkDatabase []) (MultiTable.table "users")
      = Except.error (missingMsg "users") :=
  (table_ops_absent_error (MultiTable.mkDatabase []) "users" rfl).2.1

/-- C3: after createTable and after dropTable the recorded metadata table
list equals the list of non-metadata top-level document keys, which is
exactly what listTables returns; both operations recompute the metadata
list from the document keys (name ranges over non-reserved keys, the
domain of the model). -/
theorem metadata_tables_consistent (doc : MTDoc) (name : String)
    (init : List Record) (h : name ≠ "_metadata") :
    (MultiTable.createTable doc name init).metaTables
      = MultiTable.listTables (MultiTable.createTable doc name init)
    ∧ (MultiTable.dropTable doc name).metaTables
      = MultiTable.listTables (MultiTable.dropTable doc name) :=
  ⟨rfl, rfl⟩

/-- C3 witness: concrete run after creating the users table on a fresh
database. -/
theorem metadata_tables_consistent_witness :
    (MultiTable.createTable (MultiTable.mkDatabase []) "users"
        []).metaTables
      = MultiTable.listTables
        (MultiTable.createTable (MultiTable.mkDatabase []) "users" []) :=
  (metadata_tables_consistent (MultiTable.mkDatabase []) "users" []
    (by decide)).1

theorem runOps_length_invariant (ops : List Op) : ∀ c : List Record,
    (runOps c ops).length + numSuccessfulRemoves c ops
    = c.length + numAdds ops := by
  induction ops with
  | nil => intro c; simp [runOps, numAdds, numSuccessfulRemoves]
  | cons op ops ih =>
    intro c
    cases op with
    | add r =>
      have h := ih (c ++ [r])
      simp only [runOps, numAdds, numSuccessfulRemoves, Database.add]
      simp only [List.length_append, List.length_cons, List.length_nil] at h
      omega
    | remove id =>
      cases hfi : findIndex (matchesId id) c with
      | none =>
        have h := ih c
        simp only [runOps, numAdds, numSuccessfulRemoves, Database.remove,
          hfi, Option.isSome_none, if_false, Bool.false_eq_true]
        omega
      | some i =>
        have hlt : i < c.length := findIndex_some_lt hfi
        have h := ih (c.eraseIdx i)
        have hlen : (c.eraseIdx i).length = c.length - 1 :=
          List.length_eraseIdx_of_lt hlt
        have hsome : (c.get? i).isSome = true := by
          simp [List.get?_eq_getElem?, List.getElem?_eq_getElem hlt]
        simp only [runOps, numAdds, numSuccessfulRemoves, Database.remove,
          hfi, hsome, if_true]
        omega

/-- C7: starting from the empty collection createDatabase initializes,
after any sequence of add and remove calls the count equals the number of
add calls minus the number of remove calls that returned a removed
record. -/
theorem count_adds_minus_removes (ops : List Op) :
    Database.count (runOps [] ops)
    = numAdds ops - numSuccessfulRemoves [] ops := by
  have h := runOps_length_invariant ops []
  simp only [List.length_nil] at h
  unfold Database.count
  omega

/-- C8: on a fresh multi-table database, creating the users table, adding
records with ids 1 and 2, then updating id 1 to name A2 leaves getAll
returning the two records, updated first record first, in insertion
order. -/
theorem scenario_users_crud :
    scenarioResult
    = Except.ok [[("id", Value.vInt 1), ("name", Value.vStr "A2")],
        [("id", Value.vInt 2), ("name", Value.vStr "B")]] := rfl

/-- C9: createTable assigns the document entry of the name to initialData
unconditionally, so calling it on an existing table silently discards the
current records and replaces them with initialData (name ranges over
non-reserved keys, the domain of the model). -/
theorem createTable_overwrites (doc : MTDoc) (name : String)
    (init : List Record) (h : name ≠ "_metadata") :
    MultiTable.lookupTable (MultiTable.createTable doc name init) name
      = some init := by
  simp [MultiTable.lookupTable, MultiTable.createTable, find?_setEntry]

/-- C9 witness: createTable on the existing users table holding recA
leaves the table holding the empty initial data. -/
theorem createTable_overwrites_witness :
    MultiTable.lookupTable
      (MultiTable.createTable (MultiTable.mkDatabase [("users", [recA])])
        "users" []) "users" = some [] :=
  createTable_overwrites (MultiTable.mkDatabase [("users", [recA])])
    "users" [] (by decide)

/-- C10: dropTable on a name that is not a key of the document never
raises (it is a total function); the delete is a no-op, every entry and
hence every existing table is unchanged, and the metadata table list is
recomputed from the non-metadata keys of the document. -/
theorem dropTable_absent_noop (doc : MTDoc) (name : String)
    (hname : name ≠ "_metadata")
    (h : MultiTable.lookupTable doc name = none) :
    MultiTable.dropTable doc name
      = { entries := doc.entries,
          metaTables := doc.entries.map Prod.fst } := by
  have hn : doc.entries.find? (fun q => q.1 == name) = none := by
    cases hf : doc.entries.find? (fun q => q.1 == name) with
    | none => rfl
    | some q => rw [MultiTable.lookupTable, hf] at h; simp at h
  have h0 : ∀ p ∈ doc.entries, (p.1 == name) = false := by
    intro p hp
    simpa using List.find?_eq_none.mp hn p hp
  have hfil : doc.entries.filter (fun p => !(p.1 == name)) = doc.entries :=
    List.filter_eq_self.mpr (fun p hp => by simp [h0 p hp])
  simp [MultiTable.dropTable, hfil]

/-- C10 witness: dropping the absent table named ghost leaves the users
table intact and rewrites the metadata list to the non-metadata keys. -/
theorem dropTable_absent_noop_witness :
    MultiTable.dropTable (MultiTable.mkDatabase [("users", [recA])]) "ghost"
      = { entries := [("users", [recA])], metaTables := ["users"] } :=
  dropTable_absent_noop (MultiTable.mkDatabase [("users", [recA])]) "ghost"
    (by decide) rfl
